import Mathlib

/-!
Verification development for the k12-iq-quiz client-side quiz application.

The embedding below follows the TypeScript source:
* `src/src/App.tsx` — quiz session state machine, scoring, timer;
* `src/lib/loadDataset.ts` — dataset loader (row-processing stage);
* `src/lib/storage.ts` — persistence primitives; that file is not among
  the available sources, so its operations are modelled from the spec
  contract (each marked `Modelled from the spec:` below).

Modelling conventions: JS timestamps are `Int` milliseconds; JS strings
are `String`, with the library functions `trim()` / `toUpperCase()`
modelled executably on the character list (`jsTrim` / `jsToUpper`); JS
objects used as maps with a `?? ""` lookup default are total functions
`String → String`; the two confirmation dialogs are boolean parameters of
the transitions that show them.
-/

/-- `QuizView` from `types.ts`: the three top-level views. -/
inductive QuizView where
  | start
  | quiz
  | result
deriving DecidableEq, Repr

/-- `QuestionType` from `types.ts`: "Multiple Choice" or
"Fill-in-the-blank". -/
inductive QuestionType where
  | multipleChoice
  | fillInBlank
deriving DecidableEq, Repr

/-- `Question` from `types.ts` (fields as produced by the loader). -/
structure Question where
  id : String
  question : Option String
  chQuestion : Option String
  questionType : QuestionType
  options : List String
  chOptions : List String
  answer : String
  image : Option String
deriving DecidableEq, Repr

/-- The persisted session metadata record `{startedAt?, submittedAt?,
view?, currentId?, reviewId?}`; optional fields are `Option`. -/
structure Meta where
  startedAt : Option Int
  submittedAt : Option Int
  view : Option QuizView
  currentId : Option String
  reviewId : Option String
deriving DecidableEq, Repr

/-- The persistent store exposed by `lib/storage.ts`: per-question answer
texts (default `""`) and the metadata record. -/
structure Persist where
  ans : String → String
  meta : Meta

/-- JS `String.prototype.trim()`: drop leading and trailing whitespace,
modelled on the character list so that it evaluates in the kernel. -/
def jsTrim (s : String) : String :=
  ⟨((s.data.dropWhile Char.isWhitespace).reverse.dropWhile Char.isWhitespace).reverse⟩

/-- JS `String.prototype.toUpperCase()`, modelled on the character
list. -/
def jsToUpper (s : String) : String :=
  ⟨s.data.map Char.toUpper⟩

/-- Modelled from the spec: `getAnswer(id) -> string` of `lib/storage.ts`
(missing from the available sources) — per-question keyed read. -/
def getAnswer (id : String) (p : Persist) : String := p.ans id

/-- Modelled from the spec: `setAnswer(id, v)` of `lib/storage.ts` —
per-question keyed write; other keys are untouched. -/
def setAnswer (id v : String) (p : Persist) : Persist :=
  { p with ans := fun k => if k = id then v else p.ans k }

/-- Modelled from the spec: `loadMeta()` of `lib/storage.ts` — returns
the persisted metadata record, missing fields absent. -/
def loadMeta (p : Persist) : Meta := p.meta

/-- Modelled from the spec: `saveMeta(m)` of `lib/storage.ts` — full
overwrite of the metadata record. -/
def saveMeta (m : Meta) (p : Persist) : Persist := { p with meta := m }

/-- Modelled from the spec: `clearAll(ids)` of `lib/storage.ts` — resets
the stored answers of the listed ids. -/
def clearAll (ids : List String) (p : Persist) : Persist :=
  { p with ans := fun k => if k ∈ ids then "" else p.ans k }

/-- `normalizeChoice` (App.tsx line 11): trim then upper-case. -/
def normalizeChoice (s : String) : String := jsToUpper (jsTrim s)

/-- `normalizeFill` (App.tsx line 15): trim only. -/
def normalizeFill (s : String) : String := jsTrim s

/-- `isCorrect` (App.tsx line 19): a blank user answer is never correct;
multiple choice compares normalized choices; fill-in-blank compares
trimmed strings. -/
def isCorrect (q : Question) (user : String) : Bool :=
  if jsTrim user = "" then false
  else if q.questionType = QuestionType.multipleChoice then
    normalizeChoice user = normalizeChoice q.answer
  else
    normalizeFill user = normalizeFill q.answer

/-- Reference definition of correctness following the words of the spec
(§4.2): blank → incorrect; multiple choice → equality after trimming and
upper-casing both sides; fill-in-blank → equality after trimming only. -/
def isCorrectSpec (q : Question) (user : String) : Bool :=
  if jsTrim user = "" then false
  else
    match q.questionType with
    | QuestionType.multipleChoice => jsToUpper (jsTrim user) = jsToUpper (jsTrim q.answer)
    | QuestionType.fillInBlank => jsTrim user = jsTrim q.answer

/-- A raw spreadsheet row as produced by `sheet_to_json` with `""`
defaulting (loadDataset.ts line 40); every cell already passed through
`asString`. -/
structure RawRow where
  id : String
  question : String
  chQuestion : String
  questionType : String
  options : String
  chOptions : String
  answer : String
  image : String
deriving DecidableEq, Repr

/-- `normalizeType` (loadDataset.ts line 23): only the exact trimmed text
"Fill-in-the-blank" yields a fill-in-blank question. -/
def normalizeType (raw : String) : QuestionType :=
  if jsTrim raw = "Fill-in-the-blank" then QuestionType.fillInBlank
  else QuestionType.multipleChoice

/-- One iteration of the row loop of `loadDatasetFromPublicXlsx`
(loadDataset.ts lines 43-67): rows with a blank trimmed id are skipped;
the other fields are trimmed / parsed. `pj` stands for `parseJsonArray`,
kept abstract since no claim depends on JSON parsing. -/
def parseRow (pj : String → List String) (row : RawRow) : Option Question :=
  let id := jsTrim row.id
  if id = "" then none
  else
    some
      { id := id
        question := if jsTrim row.question = "" then none else some (jsTrim row.question)
        chQuestion := if jsTrim row.chQuestion = "" then none else some (jsTrim row.chQuestion)
        questionType := normalizeType row.questionType
        options := pj row.options
        chOptions := pj row.chOptions
        answer := jsTrim row.answer
        image := if jsTrim row.image = "" then none else some (jsTrim row.image) }

/-- The row-processing stage of `loadDatasetFromPublicXlsx`
(loadDataset.ts lines 40-73): collect the parsed rows, fail when none
parsed. -/
def loadDataset (pj : String → List String) (rows : List RawRow) :
    Except String (List Question) :=
  let questions := rows.filterMap (parseRow pj)
  if questions.length = 0 then Except.error "No questions parsed from dataset.xlsx"
  else Except.ok questions

/-- A score value `{correct, total}` (App.tsx line 107). -/
structure Score where
  correct : Nat
  total : Nat
deriving DecidableEq, Repr

/-- `score` (App.tsx lines 107-115): count of questions whose current
answer is correct, over the total count. -/
def score (qs : List Question) (answers : String → String) : Score :=
  { correct := qs.countP (fun q => isCorrect q (answers q.id))
    total := qs.length }

/-- JS `Math.round` on the (here exact rational) values the app feeds
it: round half toward positive infinity. -/
def jsMathRound (x : ℚ) : ℤ := ⌊x + 1 / 2⌋

/-- `percent` (App.tsx line 372): `score.total ?
Math.round((score.correct / score.total) * 1000) / 10 : 0`. -/
def percent (sc : Score) : ℚ :=
  if sc.total = 0 then 0
  else (jsMathRound ((sc.correct : ℚ) / (sc.total : ℚ) * 1000) : ℚ) / 10

/-- The in-memory application state of `App` together with the persistent
store it reads and writes. -/
structure AppState where
  view : QuizView
  currentId : String
  reviewId : String
  answers : String → String
  persist : Persist

/-- JS truthiness of an optional number field (`undefined`, `0` and `NaN`
are falsy; `NaN` never arises here). -/
def numTruthy : Option Int → Bool
  | none => false
  | some n => n ≠ 0

/-- `questions[0]?.id ?? ""` — the fallback id (App.tsx line 57);
`questions[0].id` at the call sites that require a non-empty list. -/
def firstId (qs : List Question) : String :=
  match qs with
  | [] => ""
  | q :: _ => q.id

/-- The id-resolution idiom `o && questions.some(x => x.id === o) ? o :
fallback` used for `currentId` / `reviewId` (App.tsx lines 58-59, 140,
152). -/
def resolveId (qs : List Question) (o : Option String) (fb : String) : String :=
  match o with
  | none => fb
  | some s => if s ≠ "" ∧ qs.any (fun x => x.id = s) then s else fb

/-- The timestamp fallback idiom `typeof m.x === "number" ? m.x : now`
(App.tsx lines 138, 149, 150, 181). -/
def numOr (o : Option Int) (now : Int) : Int :=
  match o with
  | none => now
  | some n => n

/-- The dataset-ready effect (App.tsx lines 39-66): read the answers from
storage into the in-memory record, reconcile the desired view, resolve
both pointers against the loaded dataset. -/
def initApp (qs : List Question) (p : Persist) : AppState :=
  let m := loadMeta p
  let answers := fun id => if qs.any (fun q => q.id = id) then getAnswer id p else ""
  let desiredView :=
    if m.view = some QuizView.result ∧ numTruthy m.submittedAt then QuizView.result
    else if m.view = some QuizView.quiz ∧ numTruthy m.startedAt then QuizView.quiz
    else QuizView.start
  let cId := resolveId qs m.currentId (firstId qs)
  let rId := resolveId qs m.reviewId cId
  { view := desiredView, currentId := cId, reviewId := rId
    answers := answers, persist := p }

/-- `persistMeta` (App.tsx lines 117-120): load the current record,
overlay the changed fields, write back. The overlay of each call site is
expressed as a record update of the loaded record. -/
def persistMeta (f : Meta → Meta) (p : Persist) : Persist :=
  saveMeta (f (loadMeta p)) p

/-- `startNew` (App.tsx lines 122-133): clear every stored answer, write
a fresh metadata record (no `submittedAt`), reset the in-memory answer
record and both pointers, enter the quiz view. -/
def startNew (qs : List Question) (now : Int) (s : AppState) : AppState :=
  let p1 := clearAll (qs.map Question.id) s.persist
  let p2 := saveMeta
    { startedAt := some now, submittedAt := none, view := some QuizView.quiz
      currentId := some (firstId qs), reviewId := some (firstId qs) } p1
  { view := QuizView.quiz
    currentId := firstId qs
    reviewId := firstId qs
    answers := fun _ => ""
    persist := p2 }

/-- `continueQuiz` (App.tsx lines 135-144): keep `startedAt` when
present, re-resolve `currentId`, merge only `{startedAt, view,
currentId}` into the persisted record, enter the quiz view. -/
def continueQuiz (qs : List Question) (now : Int) (s : AppState) : AppState :=
  let m := loadMeta s.persist
  let startedAt := numOr m.startedAt now
  let cId := resolveId qs m.currentId (firstId qs)
  let p := persistMeta
    (fun base =>
      { base with startedAt := some startedAt, view := some QuizView.quiz
                  currentId := some cId }) s.persist
  { s with currentId := cId, view := QuizView.quiz, persist := p }

/-- `goResult` (App.tsx lines 146-156): default each timestamp to `now`
only when absent, re-resolve `reviewId`, spread the loaded record and
overlay `{startedAt, submittedAt, view, reviewId}`, enter the result
view. -/
def goResult (qs : List Question) (now : Int) (s : AppState) : AppState :=
  let m := loadMeta s.persist
  let startedAt := numOr m.startedAt now
  let submittedAt := numOr m.submittedAt now
  let rId := resolveId qs m.reviewId (firstId qs)
  let p := saveMeta
    { m with startedAt := some startedAt, submittedAt := some submittedAt
             view := some QuizView.result, reviewId := some rId } s.persist
  { s with reviewId := rId, view := QuizView.result, persist := p }

/-- `updateAnswer` (App.tsx lines 158-161): write one answer to storage
and into the in-memory record. -/
def updateAnswer (id v : String) (s : AppState) : AppState :=
  { s with persist := setAnswer id v s.persist
           answers := fun k => if k = id then v else s.answers k }

/-- `jumpTo` (App.tsx lines 163-166): move the quiz pointer, persist only
`currentId`. -/
def jumpTo (id : String) (s : AppState) : AppState :=
  { s with currentId := id
           persist := persistMeta (fun base => { base with currentId := some id }) s.persist }

/-- `jumpReview` (App.tsx lines 168-171): move the review pointer,
persist only `reviewId`. -/
def jumpReview (id : String) (s : AppState) : AppState :=
  { s with reviewId := id
           persist := persistMeta (fun base => { base with reviewId := some id }) s.persist }

/-- `submit` (App.tsx lines 173-186). The returned `Option Nat` reports
the confirmation prompt: `some n` when the dialog naming `n` unanswered
questions was shown, `none` when no prompt appeared. `confirmOk` is the
answer the user gives to the dialog (ignored when no dialog is shown). -/
def submit (qs : List Question) (now : Int) (confirmOk : Bool) (s : AppState) :
    AppState × Option Nat :=
  let unanswered := qs.filter (fun q => jsTrim (s.answers q.id) = "")
  let prompt := if unanswered.length > 0 then some unanswered.length else none
  if unanswered.length > 0 ∧ confirmOk = false then (s, prompt)
  else
    let m := loadMeta s.persist
    let startedAt := numOr m.startedAt now
    let p := saveMeta
      { m with startedAt := some startedAt, submittedAt := some now
               view := some QuizView.result, reviewId := some s.currentId
               currentId := some s.currentId } s.persist
    ({ s with reviewId := s.currentId, view := QuizView.result, persist := p }, prompt)

/-- `clearAnswers` (App.tsx lines 188-196): after confirmation, write
`""` to the stored answer of every question and replace the in-memory
record with all-empty entries; declining does nothing; nothing else is
touched. -/
def clearAnswers (qs : List Question) (confirmOk : Bool) (s : AppState) : AppState :=
  if confirmOk = false then s
  else
    { s with
      persist := qs.foldl (fun p q => setAnswer q.id "" p) s.persist
      answers := fun _ => "" }

/-- `elapsedMs` (App.tsx lines 89-93): 0 without a (truthy) start
timestamp; frozen at `submittedAt - startedAt` on the result view with a
truthy submission timestamp; ticking `now - startedAt` otherwise; always
clamped at 0. -/
def elapsedMs (startedAt submittedAt : Option Int) (view : QuizView) (now : Int) : Int :=
  if numTruthy startedAt = false then 0
  else if view = QuizView.result ∧ numTruthy submittedAt then
    max 0 (submittedAt.getD 0 - startedAt.getD 0)
  else max 0 (now - startedAt.getD 0)

/-- Concrete multiple-choice question used by witnesses. -/
def qA : Question :=
  { id := "a", question := none, chQuestion := none
    questionType := QuestionType.multipleChoice, options := [], chOptions := []
    answer := "A", image := none }

/-- Concrete fill-in-blank question used by witnesses. -/
def qB : Question :=
  { id := "b", question := none, chQuestion := none
    questionType := QuestionType.fillInBlank, options := [], chOptions := []
    answer := "xy", image := none }

/-- Concrete two-question dataset used by witnesses. -/
def sampleQs : List Question := [qA, qB]

/-- Concrete answer map with both sample questions answered correctly. -/
def ansFull : String → String :=
  fun k => if k = "a" then "A" else if k = "b" then "xy" else ""

/-- Concrete metadata record used by witnesses. -/
def meta0 : Meta :=
  { startedAt := some 5, submittedAt := none, view := some QuizView.quiz
    currentId := some "b", reviewId := none }

/-- Concrete application state with no answers, used by witnesses. -/
def state0 : AppState :=
  { view := QuizView.quiz, currentId := "a", reviewId := "a"
    answers := fun _ => "", persist := { ans := fun _ => "", meta := meta0 } }

/-- Concrete application state with every question answered, used by
witnesses. -/
def stateAns : AppState :=
  { view := QuizView.quiz, currentId := "a", reviewId := "a"
    answers := ansFull, persist := { ans := ansFull, meta := meta0 } }

/-- Concrete store whose persisted `currentId` is stale (names no loaded
question), used by witnesses. -/
def persistStale : Persist :=
  { ans := fun _ => ""
    meta := { startedAt := some 5, submittedAt := none, view := some QuizView.quiz
              currentId := some "zz", reviewId := none } }

/-- Trivial JSON-array parser stand-in used by concrete loader inputs. -/
def pjNil : String → List String := fun _ => []

/-- Concrete raw row with id "a", used by loader witnesses. -/
def rowA : RawRow :=
  { id := "a", question := "", chQuestion := "", questionType := ""
    options := "", chOptions := "", answer := "A", image := "" }

/-- Concrete raw row with a whitespace-only id (skipped by the loader),
used by loader witnesses. -/
def rowBlank : RawRow :=
  { id := "  ", question := "", chQuestion := "", questionType := ""
    options := "", chOptions := "", answer := "B", image := "" }

/-- The question the loader produces from `rowA`. -/
def parsedA : Question :=
  { id := "a", question := none, chQuestion := none
    questionType := QuestionType.multipleChoice, options := [], chOptions := []
    answer := "A", image := none }

/-- State reached by submitting `stateAns` at time 10 and then returning
to the quiz via `continueQuiz` at time 20: its view is `quiz` while its
persisted `submittedAt` is still set. -/
def stateAfterContinue : AppState :=
  continueQuiz sampleQs 20 (submit sampleQs 10 true stateAns).1

/-- The `questions.some(x => x.id === s)` test is membership of `s` among
the question ids. -/
theorem any_id_iff_mem (qs : List Question) (s : String) :
    qs.any (fun x => x.id = s) = true ↔ s ∈ qs.map Question.id := by
  rw [List.any_eq_true]
  constructor
  · rintro ⟨x, hx, hxs⟩
    exact List.mem_map.mpr ⟨x, hx, by simpa using hxs⟩
  · intro hmem
    obtain ⟨x, hx, hxs⟩ := List.mem_map.mp hmem
    exact ⟨x, hx, by simpa using hxs⟩

/-- On a non-empty dataset the fallback id is a loaded question id. -/
theorem firstId_mem (qs : List Question) (hne : qs ≠ []) :
    firstId qs ∈ qs.map Question.id := by
  cases qs with
  | nil => exact absurd rfl hne
  | cons q rest => simp [firstId]

/-- Resolution of an absent stored pointer yields the fallback. -/
theorem resolveId_none (qs : List Question) (fb : String) :
    resolveId qs none fb = fb := rfl

/-- Resolution of a stored pointer that names a loaded (non-blank) id
keeps it. -/
theorem resolveId_some_valid (qs : List Question) (c fb : String)
    (hmem : c ∈ qs.map Question.id) (hne : c ≠ "") :
    resolveId qs (some c) fb = c := by
  simp [resolveId, hne, (any_id_iff_mem qs c).mpr hmem]

/-- Resolution of a stored pointer that names no loaded id yields the
fallback. -/
theorem resolveId_some_stale (qs : List Question) (c fb : String)
    (hmem : c ∉ qs.map Question.id) :
    resolveId qs (some c) fb = fb := by
  have hcond : ¬ (c ≠ "" ∧ qs.any (fun x => x.id = c) = true) := by
    rintro ⟨-, hany⟩
    exact hmem ((any_id_iff_mem qs c).mp hany)
  unfold resolveId
  exact if_neg hcond

/-- The resolved pointer is always among the loaded ids or the
fallback. -/
theorem resolveId_mem_or_fb (qs : List Question) (o : Option String) (fb : String) :
    resolveId qs o fb = fb ∨ resolveId qs o fb ∈ qs.map Question.id := by
  match o with
  | none => exact Or.inl rfl
  | some c =>
    by_cases hc : c ≠ "" ∧ qs.any (fun x => x.id = c) = true
    · right
      have he : resolveId qs (some c) fb = c := by
        unfold resolveId
        exact if_pos hc
      rw [he]
      exact (any_id_iff_mem qs c).mp hc.2
    · left
      unfold resolveId
      exact if_neg hc

/-- Writing `""` to each listed question in turn clears exactly the
listed ids in the store. -/
theorem foldl_setAnswer_ans (qs : List Question) (p : Persist) (k : String) :
    (qs.foldl (fun p q => setAnswer q.id "" p) p).ans k
      = if k ∈ qs.map Question.id then "" else p.ans k := by
  induction qs generalizing p with
  | nil => simp
  | cons q rest ih =>
    simp only [List.foldl_cons, List.map_cons, List.mem_cons]
    rw [ih]
    by_cases h : k ∈ rest.map Question.id
    · simp [h]
    · by_cases hk : k = q.id <;> simp [h, hk, setAnswer]

/-- Writing answers never touches the metadata record. -/
theorem foldl_setAnswer_meta (qs : List Question) (p : Persist) :
    (qs.foldl (fun p q => setAnswer q.id "" p) p).meta = p.meta := by
  induction qs generalizing p with
  | nil => rfl
  | cons q rest ih =>
    rw [List.foldl_cons, ih]
    rfl

/-- The ids of the parsed questions are exactly the non-blank trimmed ids
of the input rows, in order: the loader keeps duplicates. -/
theorem loadDataset_ids (pj : String → List String) (rows : List RawRow) :
    (rows.filterMap (parseRow pj)).map Question.id
      = (rows.map (fun r => jsTrim r.id)).filter (fun x => x ≠ "") := by
  induction rows with
  | nil => rfl
  | cons r rest ih =>
    simp only [List.filterMap_cons, List.map_cons, List.filter_cons]
    by_cases h : jsTrim r.id = ""
    · simp [parseRow, h, ih]
    · simp [parseRow, h, ih]

/-- C5: `isCorrect` coincides with the reference definition written from
the words of the spec, on every question and every user answer text: a
blank answer is never correct; multiple choice is compared after trimming
and upper-casing both sides; fill-in-blank after trimming only. -/
theorem isCorrect_matches_reference (q : Question) (user : String) :
    isCorrect q user = isCorrectSpec q user := by
  unfold isCorrect isCorrectSpec normalizeChoice normalizeFill
  cases h : q.questionType <;> simp [h]

/-- C6: the aggregate score satisfies `correct ≤ total` on every dataset
and answer map (`0 ≤ correct` holds by the type); the displayed
percentage is `round(correct/total*1000)/10` whenever `total ≠ 0`; on the
achievable pairs named by the spec, 7 of 10 yields 70.0 and 1 of 3 yields
33.3. -/
theorem score_bounds_and_percent :
    (∀ qs answers, (score qs answers).correct ≤ (score qs answers).total) ∧
    (∀ c t, t ≠ 0 →
      percent { correct := c, total := t }
        = (jsMathRound ((c : ℚ) / (t : ℚ) * 1000) : ℚ) / 10) ∧
    percent { correct := 7, total := 10 } = 70 ∧
    percent { correct := 1, total := 3 } = 333 / 10 := by
  refine ⟨fun qs answers => List.countP_le_length _,
          fun c t ht => by simp [percent, ht], ?_, ?_⟩
  · norm_num [percent, jsMathRound]
  · norm_num [percent, jsMathRound]

/-- Witness for C6 at `correct = 7`, `total = 10` and a concrete score
computation. -/
theorem score_bounds_and_percent_witness :
    percent { correct := 7, total := 10 }
      = (jsMathRound ((7 : ℚ) / (10 : ℚ) * 1000) : ℚ) / 10 ∧
    (score sampleQs ansFull).correct ≤ (score sampleQs ansFull).total :=
  ⟨score_bounds_and_percent.2.1 7 10 (by decide),
   score_bounds_and_percent.1 sampleQs ansFull⟩

/-- C10: `updateAnswer i v` sets the answer of question `i` to `v` in
both the in-memory record and the persisted store, and leaves every other
question id unchanged in both. -/
theorem updateAnswer_pointwise (i v : String) (s : AppState) :
    ((updateAnswer i v s).answers i = v) ∧
    (getAnswer i (updateAnswer i v s).persist = v) ∧
    (∀ j, j ≠ i →
      (updateAnswer i v s).answers j = s.answers j ∧
      getAnswer j (updateAnswer i v s).persist = getAnswer j s.persist) := by
  refine ⟨by simp [updateAnswer], by simp [updateAnswer, setAnswer, getAnswer], ?_⟩
  intro j hj
  constructor <;> simp [updateAnswer, setAnswer, getAnswer, hj]

/-- Witness for C10 at `i = "a"`, `v = "X"`, `j = "b"`. -/
theorem updateAnswer_pointwise_witness :
    ((updateAnswer "a" "X" state0).answers "a" = "X") ∧
    ((updateAnswer "a" "X" state0).answers "b" = state0.answers "b") ∧
    (getAnswer "b" (updateAnswer "a" "X" state0).persist = getAnswer "b" state0.persist) := by
  have h := updateAnswer_pointwise "a" "X" state0
  exact ⟨h.1, (h.2.2 "b" (by decide)).1, (h.2.2 "b" (by decide)).2⟩

/-- C9: declining the confirmation leaves the state untouched; after
confirmation, every question answer becomes `""` in the in-memory record
and in the store, while the persisted metadata record (hence `startedAt`,
`submittedAt` and both pointers) and the in-memory view and pointers are
unchanged. -/
theorem clearAnswers_resets_only_answers (qs : List Question) (s : AppState) :
    (clearAnswers qs false s = s) ∧
    (∀ q ∈ qs, (clearAnswers qs true s).answers q.id = ""
      ∧ getAnswer q.id (clearAnswers qs true s).persist = "") ∧
    (clearAnswers qs true s).persist.meta = s.persist.meta ∧
    (clearAnswers qs true s).view = s.view ∧
    (clearAnswers qs true s).currentId = s.currentId ∧
    (clearAnswers qs true s).reviewId = s.reviewId := by
  refine ⟨rfl, ?_, ?_, rfl, rfl, rfl⟩
  · intro q hq
    have hmem : q.id ∈ qs.map Question.id := List.mem_map_of_mem _ hq
    exact ⟨rfl, by simp [clearAnswers, getAnswer, foldl_setAnswer_ans, hmem]⟩
  · simp [clearAnswers, foldl_setAnswer_meta]

/-- Witness for C9 on the concrete answered state. -/
theorem clearAnswers_resets_only_answers_witness :
    getAnswer "a" (clearAnswers sampleQs true stateAns).persist = "" ∧
    (clearAnswers sampleQs true stateAns).persist.meta = stateAns.persist.meta ∧
    (clearAnswers sampleQs true stateAns).view = stateAns.view := by
  have h := clearAnswers_resets_only_answers sampleQs stateAns
  exact ⟨(h.2.1 qA (by decide)).2, h.2.2.1, h.2.2.2.1⟩

/-- C4 counterexample: on two input rows with the same id "a" the loader
succeeds and returns two records sharing that id — the uniqueness half of
the claim is false. -/
theorem loadDataset_duplicate_ids :
    (loadDataset pjNil [rowA, rowA]).toOption.map (fun l => l.map Question.id)
      = some ["a", "a"] ∧
    ¬ (["a", "a"] : List String).Nodup := by
  constructor
  · decide
  · decide

/-- C4 amended: on success every returned id is non-empty and the list is
non-empty; zero valid parsed rows yield the single terminal error; ids
are pairwise distinct only under the extra assumption that the non-blank
trimmed ids of the input rows are pairwise distinct (the loader does not
deduplicate). -/
theorem loadDataset_guarantees (pj : String → List String) (rows : List RawRow) :
    (∀ l, loadDataset pj rows = Except.ok l → ((∀ q ∈ l, q.id ≠ "") ∧ l ≠ [])) ∧
    (rows.filterMap (parseRow pj) = [] →
      loadDataset pj rows = Except.error "No questions parsed from dataset.xlsx") ∧
    (((rows.map (fun r => jsTrim r.id)).filter (fun x => x ≠ "")).Nodup →
      ∀ l, loadDataset pj rows = Except.ok l → (l.map Question.id).Nodup) := by
  refine ⟨?_, ?_, ?_⟩
  · intro l hl
    unfold loadDataset at hl
    by_cases h : (rows.filterMap (parseRow pj)).length = 0
    · simp [h] at hl
    · simp [h] at hl
      constructor
      · intro q hq
        have hid : q.id ∈ (rows.filterMap (parseRow pj)).map Question.id :=
          List.mem_map_of_mem _ (hl ▸ hq)
        rw [loadDataset_ids] at hid
        simpa using (List.mem_filter.mp hid).2
      · intro hnil
        rw [← hl] at hnil
        exact h (by simp [hnil])
  · intro h0
    unfold loadDataset
    simp [h0]
  · intro hnd l hl
    unfold loadDataset at hl
    by_cases h : (rows.filterMap (parseRow pj)).length = 0
    · simp [h] at hl
    · simp [h] at hl
      rw [← hl, loadDataset_ids]
      exact hnd

/-- Witness for C4 amended: a concrete two-row input (one valid row, one
whitespace-only id) and a concrete zero-valid-row input. -/
theorem loadDataset_guarantees_witness :
    (∀ q ∈ [parsedA], q.id ≠ "") ∧
    (([parsedA] : List Question).map Question.id).Nodup ∧
    loadDataset pjNil [rowBlank]
      = Except.error "No questions parsed from dataset.xlsx" := by
  have h := loadDataset_guarantees pjNil [rowA, rowBlank]
  have hok : loadDataset pjNil [rowA, rowBlank] = Except.ok [parsedA] := by rfl
  have h2 := loadDataset_guarantees pjNil [rowBlank]
  exact ⟨(h.1 [parsedA] hok).1, h.2.2 (by decide) [parsedA] hok, h2.2.1 (by decide)⟩

/-- C2: initialization on a non-empty loaded dataset (loader-guaranteed
non-blank ids) resolves `currentId` to the stored value exactly when it
names a loaded question and to the first question id otherwise, resolves
`reviewId` to the stored value exactly when it names a loaded question
and to the resolved `currentId` otherwise, and both resolved pointers
always name loaded questions. -/
theorem initApp_resolves_pointers (qs : List Question) (p : Persist)
    (hne : qs ≠ []) (hids : ∀ q ∈ qs, q.id ≠ "") :
    ((initApp qs p).currentId ∈ qs.map Question.id) ∧
    ((initApp qs p).reviewId ∈ qs.map Question.id) ∧
    (∀ c, (loadMeta p).currentId = some c → c ∈ qs.map Question.id →
      (initApp qs p).currentId = c) ∧
    (∀ c, (loadMeta p).currentId = some c → c ∉ qs.map Question.id →
      (initApp qs p).currentId = firstId qs) ∧
    ((loadMeta p).currentId = none → (initApp qs p).currentId = firstId qs) ∧
    (∀ r, (loadMeta p).reviewId = some r → r ∈ qs.map Question.id →
      (initApp qs p).reviewId = r) ∧
    (∀ r, (loadMeta p).reviewId = some r → r ∉ qs.map Question.id →
      (initApp qs p).reviewId = (initApp qs p).currentId) ∧
    ((loadMeta p).reviewId = none → (initApp qs p).reviewId = (initApp qs p).currentId) := by
  have hcur : (initApp qs p).currentId
      = resolveId qs p.meta.currentId (firstId qs) := rfl
  have hrev : (initApp qs p).reviewId
      = resolveId qs p.meta.reviewId ((initApp qs p).currentId) := rfl
  have hcmem : (initApp qs p).currentId ∈ qs.map Question.id := by
    rw [hcur]
    rcases resolveId_mem_or_fb qs p.meta.currentId (firstId qs) with h | h
    · rw [h]
      exact firstId_mem qs hne
    · exact h
  refine ⟨hcmem, ?_, ?_, ?_, ?_, ?_, ?_, ?_⟩
  · rw [hrev]
    rcases resolveId_mem_or_fb qs p.meta.reviewId ((initApp qs p).currentId) with h | h
    · rw [h]
      exact hcmem
    · exact h
  · intro c hc hcm
    have hcne : c ≠ "" := by
      obtain ⟨x, hx, hxs⟩ := List.mem_map.mp hcm
      exact hxs ▸ hids x hx
    rw [hcur, show (loadMeta p).currentId = p.meta.currentId from rfl] at *
    rw [hc] at hcur ⊢
    rw [hcur, resolveId_some_valid qs c (firstId qs) hcm hcne]
  · intro c hc hcm
    have : p.meta.currentId = some c := hc
    rw [hcur, this, resolveId_some_stale qs c (firstId qs) hcm]
  · intro hc
    have : p.meta.currentId = none := hc
    rw [hcur, this, resolveId_none]
  · intro r hr hrm
    have hrne : r ≠ "" := by
      obtain ⟨x, hx, hxs⟩ := List.mem_map.mp hrm
      exact hxs ▸ hids x hx
    have : p.meta.reviewId = some r := hr
    rw [hrev, this, resolveId_some_valid qs r _ hrm hrne]
  · intro r hr hrm
    have : p.meta.reviewId = some r := hr
    rw [hrev, this, resolveId_some_stale qs r _ hrm]
  · intro hr
    have : p.meta.reviewId = none := hr
    rw [hrev, this, resolveId_none]

/-- Witness for C2: a stale stored `currentId` ("zz") with no stored
`reviewId` resolves to the first question id for both pointers. -/
theorem initApp_resolves_pointers_witness :
    (initApp sampleQs persistStale).currentId = firstId sampleQs ∧
    (initApp sampleQs persistStale).reviewId = (initApp sampleQs persistStale).currentId ∧
    (initApp sampleQs persistStale).currentId ∈ sampleQs.map Question.id := by
  have h := initApp_resolves_pointers sampleQs persistStale (by decide) (by decide)
  exact ⟨h.2.2.2.1 "zz" rfl (by decide), h.2.2.2.2.2.2.2 rfl, h.1⟩

/-- C1: `submit` shows a confirmation naming the exact count of
unanswered questions exactly when that count is positive; declining
leaves the whole state (in-memory and persisted) unchanged; on
confirmation, or immediately with no prompt when every question is
answered, it sets `submittedAt = now`, the view to `result` (in memory
and in the persisted record) and both the in-memory and persisted
`reviewId` to the current `currentId`. -/
theorem submit_guard_and_transition (qs : List Question) (now : Int) (confirmOk : Bool)
    (s : AppState) :
    ((submit qs now confirmOk s).2
      = if (qs.filter (fun q => jsTrim (s.answers q.id) = "")).length > 0
        then some (qs.filter (fun q => jsTrim (s.answers q.id) = "")).length
        else none) ∧
    ((qs.filter (fun q => jsTrim (s.answers q.id) = "")).length > 0 → confirmOk = false →
      (submit qs now confirmOk s).1 = s) ∧
    ((qs.filter (fun q => jsTrim (s.answers q.id) = "")).length = 0 ∨ confirmOk = true →
      ((submit qs now confirmOk s).1.view = QuizView.result ∧
       (submit qs now confirmOk s).1.reviewId = s.currentId ∧
       (submit qs now confirmOk s).1.persist.meta.submittedAt = some now ∧
       (submit qs now confirmOk s).1.persist.meta.view = some QuizView.result ∧
       (submit qs now confirmOk s).1.persist.meta.reviewId = some s.currentId ∧
       (submit qs now confirmOk s).1.persist.meta.currentId = some s.currentId)) := by
  refine ⟨?_, ?_, ?_⟩
  · simp only [submit]
    by_cases h : (qs.filter (fun q => jsTrim (s.answers q.id) = "")).length > 0
        ∧ confirmOk = false
    · rw [if_pos h]
    · rw [if_neg h]
  · intro hn hc
    simp only [submit]
    rw [if_pos ⟨hn, hc⟩]
  · intro h
    have hcond : ¬ ((qs.filter (fun q => jsTrim (s.answers q.id) = "")).length > 0
        ∧ confirmOk = false) := by
      rintro ⟨h1, h2⟩
      rcases h with h0 | ht
      · omega
      · rw [ht] at h2
        exact Bool.noConfusion h2
    simp only [submit]
    rw [if_neg hcond]
    exact ⟨rfl, rfl, rfl, rfl, rfl, rfl⟩

/-- Witness for C1: with every question answered the prompt is skipped
and the transition happens even though `confirmOk` is false; with no
question answered and `confirmOk = false`, nothing changes. -/
theorem submit_guard_and_transition_witness :
    (submit sampleQs 10 false stateAns).1.view = QuizView.result ∧
    (submit sampleQs 10 false stateAns).1.reviewId = stateAns.currentId ∧
    (submit sampleQs 10 false stateAns).1.persist.meta.submittedAt = some 10 ∧
    (submit sampleQs 10 false stateAns).2 = none ∧
    (submit sampleQs 99 false state0).1 = state0 := by
  have h := submit_guard_and_transition sampleQs 10 false stateAns
  have h0 := submit_guard_and_transition sampleQs 99 false state0
  refine ⟨(h.2.2 (Or.inl (by decide))).1, (h.2.2 (Or.inl (by decide))).2.1,
          (h.2.2 (Or.inl (by decide))).2.2.1, ?_, h0.2.1 (by decide) rfl⟩
  rw [h.1]
  decide

/-- C3: every metadata-writing transition performs read-merge-write: its
resulting persisted record is the previously persisted record with
exactly the fields that transition changes overlaid, so every other field
keeps its previously persisted value (`startNew` overlays all five
fields, clearing `submittedAt`). -/
theorem metadata_read_merge_write (qs : List Question) (now : Int) (id : String)
    (s : AppState) (_hne : qs ≠ []) :
    ((jumpTo id s).persist.meta = { s.persist.meta with currentId := some id }) ∧
    ((jumpReview id s).persist.meta = { s.persist.meta with reviewId := some id }) ∧
    ((continueQuiz qs now s).persist.meta
      = { s.persist.meta with
            startedAt := some (numOr s.persist.meta.startedAt now)
            view := some QuizView.quiz
            currentId := some (resolveId qs s.persist.meta.currentId (firstId qs)) }) ∧
    ((goResult qs now s).persist.meta
      = { s.persist.meta with
            startedAt := some (numOr s.persist.meta.startedAt now)
            submittedAt := some (numOr s.persist.meta.submittedAt now)
            view := some QuizView.result
            reviewId := some (resolveId qs s.persist.meta.reviewId (firstId qs)) }) ∧
    ((submit qs now true s).1.persist.meta
      = { s.persist.meta with
            startedAt := some (numOr s.persist.meta.startedAt now)
            submittedAt := some now
            view := some QuizView.result
            currentId := some s.currentId
            reviewId := some s.currentId }) ∧
    ((startNew qs now s).persist.meta
      = { startedAt := some now, submittedAt := none, view := some QuizView.quiz
          currentId := some (firstId qs), reviewId := some (firstId qs) }) := by
  refine ⟨rfl, rfl, rfl, rfl, ?_, rfl⟩
  have hcond : ¬ ((qs.filter (fun q => jsTrim (s.answers q.id) = "")).length > 0
      ∧ (true : Bool) = false) := by
    rintro ⟨-, h⟩
    exact Bool.noConfusion h
  simp only [submit]
  rw [if_neg hcond]
  rfl

/-- Witness for C3 on the concrete state: a pointer jump overlays only
`currentId`; `continueQuiz` overlays only its three fields (in
particular the persisted `submittedAt` and `reviewId` survive). -/
theorem metadata_read_merge_write_witness :
    (jumpTo "b" state0).persist.meta
      = { state0.persist.meta with currentId := some "b" } ∧
    (continueQuiz sampleQs 99 state0).persist.meta
      = { state0.persist.meta with
            startedAt := some (numOr state0.persist.meta.startedAt 99)
            view := some QuizView.quiz
            currentId := some (resolveId sampleQs state0.persist.meta.currentId
              (firstId sampleQs)) } := by
  have h := metadata_read_merge_write sampleQs 99 "b" state0 (by decide)
  exact ⟨h.1, h.2.2.1⟩

/-- C7: `startNew` on a non-empty dataset is a full reset: every
question answer becomes `""` in memory and in the store, the persisted
record becomes exactly `{startedAt = now, submittedAt cleared, view =
quiz, currentId = reviewId = first question id}`, and the in-memory
view and pointers match it. -/
theorem startNew_full_reset (q0 : Question) (rest : List Question) (now : Int)
    (s : AppState) :
    (∀ q ∈ q0 :: rest, (startNew (q0 :: rest) now s).answers q.id = ""
      ∧ getAnswer q.id (startNew (q0 :: rest) now s).persist = "") ∧
    (startNew (q0 :: rest) now s).persist.meta
      = { startedAt := some now, submittedAt := none, view := some QuizView.quiz
          currentId := some q0.id, reviewId := some q0.id } ∧
    (startNew (q0 :: rest) now s).view = QuizView.quiz ∧
    (startNew (q0 :: rest) now s).currentId = q0.id ∧
    (startNew (q0 :: rest) now s).reviewId = q0.id := by
  refine ⟨?_, rfl, rfl, rfl, rfl⟩
  intro q hq
  refine ⟨rfl, ?_⟩
  have hmem : q.id ∈ (q0 :: rest).map Question.id := List.mem_map_of_mem _ hq
  show (if q.id ∈ (q0 :: rest).map Question.id then "" else s.persist.ans q.id) = ""
  exact if_pos hmem

/-- Witness for C7 on the concrete answered state at time 42. -/
theorem startNew_full_reset_witness :
    getAnswer "b" (startNew sampleQs 42 stateAns).persist = "" ∧
    (startNew sampleQs 42 stateAns).view = QuizView.quiz ∧
    (startNew sampleQs 42 stateAns).currentId = qA.id := by
  have h := startNew_full_reset qA [qB] 42 stateAns
  exact ⟨(h.1 qB (by decide)).2, h.2.2.1, h.2.2.2.1⟩

/-- C8 counterexample: in the state reached by submitting at time 10 and
then continuing the quiz at time 20, the persisted `submittedAt` is set
(`some 10`) yet the elapsed time still changes as the wall clock
advances (95 at `now = 100`, 195 at `now = 200`) — the claim that
elapsed time is frozen once `submittedAt` is set is false; freezing
requires the result view. -/
theorem elapsedMs_ticks_after_submit :
    stateAfterContinue.persist.meta.submittedAt = some 10 ∧
    stateAfterContinue.view = QuizView.quiz ∧
    elapsedMs stateAfterContinue.persist.meta.startedAt
      stateAfterContinue.persist.meta.submittedAt stateAfterContinue.view 100 = 95 ∧
    elapsedMs stateAfterContinue.persist.meta.startedAt
      stateAfterContinue.persist.meta.submittedAt stateAfterContinue.view 200 = 195 :=
  ⟨by decide, by decide, by decide, by decide⟩

/-- C8 amended: elapsed time is never negative; while the view is not
`result` (with a set, non-zero `startedAt`) it equals
`max(0, now - startedAt)`; when the view is `result` and `submittedAt` is
set (non-zero) it is frozen at `max(0, submittedAt - startedAt)` and does
not change as `now` advances. -/
theorem elapsedMs_amended (startedAt submittedAt : Option Int) (view : QuizView)
    (now : Int) :
    0 ≤ elapsedMs startedAt submittedAt view now ∧
    (∀ t, startedAt = some t → t ≠ 0 → view ≠ QuizView.result →
      elapsedMs startedAt submittedAt view now = max 0 (now - t)) ∧
    (∀ t u, startedAt = some t → t ≠ 0 → submittedAt = some u → u ≠ 0 →
      view = QuizView.result →
      elapsedMs startedAt submittedAt view now = max 0 (u - t) ∧
      ∀ now2 : Int, elapsedMs startedAt submittedAt view now2
        = elapsedMs startedAt submittedAt view now) := by
  refine ⟨?_, ?_, ?_⟩
  · unfold elapsedMs
    split_ifs <;> simp
  · intro t ht htne hview
    subst ht
    simp [elapsedMs, numTruthy, htne, hview]
  · intro t u ht htne hu hune hview
    subst ht
    subst hu
    subst hview
    constructor
    · simp [elapsedMs, numTruthy, htne, hune]
    · intro now2
      simp [elapsedMs, numTruthy, htne, hune]

/-- Witness for C8 amended: frozen at 5 on the result view regardless of
`now`; ticking on the quiz view. -/
theorem elapsedMs_amended_witness :
    elapsedMs (some 5) (some 10) QuizView.result 100 = max 0 (10 - 5) ∧
    elapsedMs (some 5) (some 10) QuizView.result 777
      = elapsedMs (some 5) (some 10) QuizView.result 100 ∧
    elapsedMs (some 5) (some 10) QuizView.quiz 100 = max 0 (100 - 5) := by
  have h := elapsedMs_amended (some 5) (some 10) QuizView.result 100
  have h2 := elapsedMs_amended (some 5) (some 10) QuizView.quiz 100
  refine ⟨(h.2.2 5 10 rfl (by decide) rfl (by decide) rfl).1,
          (h.2.2 5 10 rfl (by decide) rfl (by decide) rfl).2 777,
          h2.2.1 5 rfl (by decide) (by decide)⟩
